import Mathlib

/-!
Verification of the wavebot broadcast relay bot (`src/api/index.py`).

The Python source is shallowly embedded below.  Strings are modelled as
`List Char` (digits are the ASCII digit range, matching the inputs the bot
receives), times as minutes on an integer axis, and the Redis/Telegram
collaborators as explicit function parameters / returned effect records.
-/

namespace WaveBot

/-! ## Generic string helpers (Python `str` primitives used by the source) -/

/-- ASCII digit test, modelling `\d` of the source's regexes. -/
def isDigitC (c : Char) : Bool := c.isDigit

/-- Numeric value of a digit string, modelling Python `int(...)` on the
regex groups. -/
def digitsVal (ds : List Char) : Nat := ds.foldl (fun a c => 10 * a + (c.toNat - 48)) 0

/-- Python `str.strip()`: remove whitespace from both ends. -/
def pstrip (cs : List Char) : List Char :=
  ((cs.dropWhile Char.isWhitespace).reverse.dropWhile Char.isWhitespace).reverse

/-- Python `str.replace(" ", "")`. -/
def despace (cs : List Char) : List Char := cs.filter (fun c => !(c == ' '))

/-- Python `str.lower()` (ASCII). -/
def toLowerL (cs : List Char) : List Char := cs.map Char.toLower

/-- One step bound of Python `str.replace(pat, rep)`: left-to-right,
non-overlapping; `fuel` bounds the scan (callers pass the string length,
which suffices since every step consumes at least one character). -/
def replaceFuel (pat rep : List Char) : Nat → List Char → List Char
  | 0, cs => cs
  | _, [] => []
  | fuel + 1, c :: cs =>
    if pat ≠ [] ∧ pat.isPrefixOf (c :: cs) then
      rep ++ replaceFuel pat rep fuel ((c :: cs).drop pat.length)
    else
      c :: replaceFuel pat rep fuel cs

/-- Python `s.replace(pat, rep)`. -/
def strReplace (s pat rep : List Char) : List Char := replaceFuel pat rep s.length s

/-! ## `parse_relative_time` (src/api/index.py lines 47-54)

`re.match(r"(\d+)([mhd])", time_str.lower())`: the unit character is the
first non-digit character (the regex cannot backtrack into `[mhd]`), and
anything after it is ignored.  The returned `timedelta` is modelled in
minutes. -/

def parse_relative_time (s : String) : Option Nat :=
  let cs := toLowerL s.data
  let ds := cs.takeWhile isDigitC
  let rest := cs.dropWhile isDigitC
  if ds = [] then none
  else
    match rest with
    | 'm' :: _ => some (digitsVal ds)
    | 'h' :: _ => some (60 * digitsVal ds)
    | 'd' :: _ => some (1440 * digitsVal ds)
    | _ => none

/-- Minutes denoted by value `v` with unit character `u`. -/
def unitMinutes (u : Char) (v : Nat) : Nat :=
  if u = 'm' then v else if u = 'h' then 60 * v else 1440 * v

/-! ## `add_channel_command` core (src/api/index.py lines 166-181) -/

inductive AddOutcome
  | invalidName
  | added
  | alreadyRegistered
deriving DecidableEq

/-- Python `channel_name.startswith('@')`, on the character sequence. -/
def startsWithAt (s : String) : Bool := List.isPrefixOf ['@'] s.data

/-- The registry mutation and reply of `/addchannel` (after the admin and
argument checks): reject names not starting with `'@'`, report duplicates,
otherwise append and persist. -/
def add_channel (channels : List String) (name : String) : List String × AddOutcome :=
  if ¬ startsWithAt name then (channels, .invalidName)
  else if name ∈ channels then (channels, .alreadyRegistered)
  else (channels ++ [name], .added)

/-! ## `parse_datetime_eat` (src/api/index.py lines 56-114)

Civil date-times in the fixed UTC+3 (EAT) offset are modelled by `DT`;
absolute instants by their minute count on a linear axis (`dtMinutes`);
`timedelta(days=1)` is `+ 1440` minutes and `timedelta(hours=3)` is `180`
minutes. -/

/-- Gregorian leap year, as `datetime`'s calendar. -/
def isLeap (y : Nat) : Bool := (y % 4 == 0 && y % 100 != 0) || y % 400 == 0

def daysInMonth (y m : Nat) : Nat :=
  if m = 2 then (if isLeap y then 29 else 28)
  else if m = 4 ∨ m = 6 ∨ m = 9 ∨ m = 11 then 30 else 31

/-- `datetime.strptime` date validation: year within `MINYEAR..MAXYEAR`,
month `1..12`, day valid for the month. -/
def validYMD (y m d : Nat) : Bool :=
  1 ≤ y && y ≤ 9999 && 1 ≤ m && m ≤ 12 && 1 ≤ d && d ≤ daysInMonth y m

def daysBeforeMonth (y m : Nat) : Nat :=
  ((List.range (m - 1)).map (fun i => daysInMonth y (i + 1))).sum

/-- Day index of a proleptic-Gregorian civil date (0 = 0001-01-01). -/
def dayNumber (y m d : Nat) : Nat :=
  365 * (y - 1) + (y - 1) / 4 + (y - 1) / 400 - (y - 1) / 100 + daysBeforeMonth y m + (d - 1)

/-- A civil date-time in the fixed local (EAT, UTC+3) offset. -/
structure DT where
  year : Nat
  month : Nat
  day : Nat
  hour : Nat
  minute : Nat
deriving DecidableEq

/-- Minutes since 0001-01-01 00:00; `datetime` comparison and `timedelta`
arithmetic act on this axis. -/
def dtMinutes (t : DT) : Nat := dayNumber t.year t.month t.day * 1440 + t.hour * 60 + t.minute

/-- Take exactly `n` leading ASCII digits (a `\d{n}` atom, and the two
alternatives of a greedy `\d{1,2}`). -/
def takeDigits : Nat → List Char → Option (List Char × List Char)
  | 0, cs => some ([], cs)
  | _ + 1, [] => none
  | n + 1, c :: cs =>
    if isDigitC c then (takeDigits n cs).map (fun p => (c :: p.1, p.2)) else none

def expectChar (a : Char) : List Char → Option (List Char)
  | [] => none
  | c :: cs => if c = a then some cs else none

/-- Match `\d{l1}/\d{l2}/\d{4}` at the head; returns
(month, day, year, matched length). -/
def matchSlashDate (l1 l2 : Nat) (cs : List Char) : Option (Nat × Nat × Nat × Nat) := do
  let (d1, r1) ← takeDigits l1 cs
  let r2 ← expectChar '/' r1
  let (d2, r3) ← takeDigits l2 r2
  let r4 ← expectChar '/' r3
  let (d3, _) ← takeDigits 4 r4
  pure (digitsVal d1, digitsVal d2, digitsVal d3, l1 + l2 + 6)

/-- Anchored match of `(\d{1,2})/(\d{1,2})/(\d{4})`, greedy group order. -/
def matchP1At (cs : List Char) : Option (Nat × Nat × Nat × Nat) :=
  matchSlashDate 2 2 cs <|> matchSlashDate 2 1 cs <|>
    matchSlashDate 1 2 cs <|> matchSlashDate 1 1 cs

/-- Match `\d{4}-\d{l2}-\d{l3}` at the head; returns
(year, month, day, matched length). -/
def matchDashDate (l2 l3 : Nat) (cs : List Char) : Option (Nat × Nat × Nat × Nat) := do
  let (d1, r1) ← takeDigits 4 cs
  let r2 ← expectChar '-' r1
  let (d2, r3) ← takeDigits l2 r2
  let r4 ← expectChar '-' r3
  let (d3, _) ← takeDigits l3 r4
  pure (digitsVal d1, digitsVal d2, digitsVal d3, l2 + l3 + 6)

/-- Anchored match of `(\d{4})-(\d{1,2})-(\d{1,2})`, greedy group order. -/
def matchP2At (cs : List Char) : Option (Nat × Nat × Nat × Nat) :=
  matchDashDate 2 2 cs <|> matchDashDate 2 1 cs <|>
    matchDashDate 1 2 cs <|> matchDashDate 1 1 cs

/-- `re.search` for the `MM/DD/YYYY` pattern: leftmost match, returning
(month, day, year, matched text). -/
def searchP1 : List Char → Option (Nat × Nat × Nat × List Char)
  | [] => none
  | c :: cs =>
    match matchP1At (c :: cs) with
    | some (m, d, y, len) => some (m, d, y, (c :: cs).take len)
    | none => searchP1 cs

/-- `re.search` for the `YYYY-MM-DD` pattern: leftmost match, returning
(year, month, day, matched text). -/
def searchP2 : List Char → Option (Nat × Nat × Nat × List Char)
  | [] => none
  | c :: cs =>
    match matchP2At (c :: cs) with
    | some (y, m, d, len) => some (y, m, d, (c :: cs).take len)
    | none => searchP2 cs

structure YMD where
  year : Nat
  month : Nat
  day : Nat
deriving DecidableEq

/-- Second iteration of the date-pattern loop (`YYYY-MM-DD` with
`strptime` validation); an invalid date exhausts the loop. -/
def findDateP2 (cs : List Char) : Option (YMD × List Char) :=
  match searchP2 cs with
  | some (y, m, d, txt) =>
    if validYMD y m d then some (⟨y, m, d⟩, pstrip (strReplace cs txt []))
    else none
  | none => none

/-- The date-pattern loop of `parse_datetime_eat` (lines 65-80): search
each pattern in order, validate via `strptime`, and on success remove all
occurrences of the matched text and strip; a `ValueError` moves on to the
next pattern. -/
def findDate (cs : List Char) : Option (YMD × List Char) :=
  match searchP1 cs with
  | some (m, d, y, txt) =>
    if validYMD y m d then some (⟨y, m, d⟩, pstrip (strReplace cs txt []))
    else findDateP2 cs
  | none => findDateP2 cs

/-- Shared head of both time regexes: `(\d{1,2}):(\d{2})` anchored at the
start (a leading digit run of length ≥ 3 can never match).  Returns
(hours group, minutes group, rest after the match). -/
def matchHM (cs : List Char) : Option (Nat × Nat × List Char) :=
  let ds := cs.takeWhile isDigitC
  let r := cs.dropWhile isDigitC
  if ds.length = 1 ∨ ds.length = 2 then
    match r with
    | ':' :: a :: b :: r3 =>
      if isDigitC a && isDigitC b then some (digitsVal ds, digitsVal [a, b], r3) else none
    | _ => none
  else none

/-- Lines 87-102: try the am/pm regex first (with the 1..12 hour check and
am/pm-to-24h conversion), else the 24-hour regex (0..23); out-of-range
fields reject.  Input is the lowered, space-free time string. -/
def parse_time_component (cs : List Char) : Option (Nat × Nat) :=
  match matchHM cs with
  | none => none
  | some (h, m, r3) =>
    if r3.take 2 = ['a', 'm'] ∨ r3.take 2 = ['p', 'm'] then
      if 1 ≤ h ∧ h ≤ 12 ∧ m ≤ 59 then
        some (if r3.take 2 = ['p', 'm'] ∧ h ≠ 12 then h + 12
              else if r3.take 2 = ['a', 'm'] ∧ h = 12 then 0 else h, m)
      else none
    else
      if h ≤ 23 ∧ m ≤ 59 then some (h, m) else none

/-- `parse_datetime_eat(datetime_str)` with `now` (the EAT civil time of
`utcnow() + 3h`) made explicit.  Returns the scheduled instant as UTC
minutes (`schedule_datetime_eat - timedelta(hours=3)`), or `none` on
rejection. -/
def parse_datetime_eat (nowEat : DT) (s : String) : Option Int :=
  let cleaned := pstrip s.data
  match findDate cleaned with
  | some (ymd, rest) =>
    if rest = [] then none
    else
      match parse_time_component (despace (toLowerL rest)) with
      | none => none
      | some (h, mi) =>
        let cand : Int := dtMinutes ⟨ymd.year, ymd.month, ymd.day, h, mi⟩
        if cand ≤ (dtMinutes nowEat : Int) then none else some (cand - 180)
  | none =>
    if cleaned = [] then none
    else
      match parse_time_component (despace (toLowerL cleaned)) with
      | none => none
      | some (h, mi) =>
        let cand : Int := dtMinutes ⟨nowEat.year, nowEat.month, nowEat.day, h, mi⟩
        if cand ≤ (dtMinutes nowEat : Int) then some (cand + 1440 - 180)
        else some (cand - 180)

/-! ## Message payloads and the broadcast engine
(src/api/index.py lines 124-133 and 309-378) -/

/-- The extracted self-contained payload of `extract_message_data`. -/
structure MessageData where
  text : Option String
  caption : Option String
  photo_file_id : Option String
  video_file_id : Option String
  document_file_id : Option String
  reply_markup_json : Option String
deriving DecidableEq

/-- Python truthiness of an optional string field (`None` and `""` are
falsy). -/
def truthyS : Option String → Bool
  | none => false
  | some s => !(s == "")

/-- Line 322: `watermark_text.replace("<", "&lt;").replace(">", "&gt;")
.replace("&", "&amp;")`, exactly in this order. -/
def wmEscape (cs : List Char) : List Char :=
  strReplace (strReplace (strReplace cs ['<'] ("&lt;".data)) ['>'] ("&gt;".data))
    ['&'] ("&amp;".data)

/-- Lines 316-329: prefix the watermark with a blank line, escape it, then
append to the caption if truthy, else to the text if truthy, else set it
(stripped) as the caption. -/
def apply_watermark (wm : Option String) (md : MessageData) : MessageData :=
  if truthyS wm then
    let wHtml := wmEscape ('\n' :: '\n' :: (wm.getD "").data)
    if truthyS md.caption then { md with caption := some ⟨(md.caption.getD "").data ++ wHtml⟩ }
    else if truthyS md.text then { md with text := some ⟨(md.text.getD "").data ++ wHtml⟩ }
    else { md with caption := some ⟨pstrip wHtml⟩ }
  else md

/-- Lines 344-351: one of the four send primitives is chosen by the first
truthy payload field; a payload with none of them never reaches the
transport (`sent_msg` stays `None`). -/
def hasSendablePayload (md : MessageData) : Bool :=
  truthyS md.photo_file_id || truthyS md.video_file_id ||
    truthyS md.document_file_id || truthyS md.text

/-- Observable outcome of one `broadcast_message` call: the recorded
`(chat_id, message_id)` receipts, the failed channels, the persisted
Broadcast Record (with its TTL in seconds) and the counter increment. -/
structure BroadcastOutcome where
  sent : List (Int × Nat)
  failed : List String
  record : Option (List (Int × Nat))
  recordTtlSeconds : Nat
  counterInc : Nat
deriving DecidableEq

/-- `broadcast_message` (lines 309-378).  `send ch` is the transport:
`some (chat_id, message_id)` on success, `none` when the send raises (the
`except` branch).  Per-channel work is the `for` loop's accumulation into
`sent_messages` / `failed_channels`; the record and counter effects fire
iff `sent_messages` is non-empty. -/
def broadcast_message (channels : List String) (wm : Option String) (md0 : MessageData)
    (send : String → Option (Int × Nat)) : BroadcastOutcome :=
  if channels = [] then ⟨[], [], none, 0, 0⟩
  else
    let md := apply_watermark wm md0
    let attempt : String → Option (Int × Nat) :=
      fun ch => if hasSendablePayload md then send ch else none
    let acc := channels.foldl
      (fun (acc : List (Int × Nat) × List String) ch =>
        match attempt ch with
        | some r => (acc.1 ++ [r], acc.2)
        | none => (acc.1, acc.2 ++ [ch]))
      ([], [])
    if acc.1 ≠ [] then ⟨acc.1, acc.2, some acc.1, 604800, 1⟩
    else ⟨acc.1, acc.2, none, 0, 0⟩

/-! ## Scheduled posts and cron reconciliation
(src/api/index.py lines 462-485) -/

structure Post where
  schedule_id : String
  schedule_time_utc : Int
  message_data : MessageData
deriving DecidableEq

/-- The two list comprehensions of lines 469-470 (the spec's
`drain_due(now)`): posts due at `now` and posts still pending. -/
def drain_due (posts : List Post) (now : Int) : List Post × List Post :=
  (posts.filter (fun p => decide (p.schedule_time_utc ≤ now)),
   posts.filter (fun p => decide (now < p.schedule_time_utc)))

/-- One store/engine effect of a cron run, in execution order. -/
inductive CronEffect
  | dispatch (p : Post)
  | persist (remaining : List Post)
deriving DecidableEq

/-- `cron_job_runner` (lines 462-485) as its sequence of effects plus the
HTTP status code: an empty queue returns immediately; otherwise each due
post is dispatched (exceptions per post are caught), and afterwards — only
when at least one post was due — the remaining posts are written back. -/
def cron_job_runner (posts : List Post) (now : Int) : List CronEffect × Nat :=
  if posts = [] then ([], 200)
  else
    let due := (drain_due posts now).1
    let remaining := (drain_due posts now).2
    if due ≠ [] then (due.map .dispatch ++ [.persist remaining], 200)
    else ([], 200)

/-- The ordering the claim asserts: every dispatch is preceded by a
queue-persist write. -/
def persistPrecedesDispatches : List CronEffect → Bool
  | [] => true
  | .persist _ :: _ => true
  | .dispatch _ :: _ => false

/-- The ordering the code implements: every persist comes after all
dispatches. -/
def dispatchesPrecedePersist : List CronEffect → Bool
  | [] => true
  | .dispatch _ :: t => dispatchesPrecedePersist t
  | .persist _ :: t =>
    t.all (fun e => match e with
      | .dispatch _ => false
      | .persist _ => true)

/-! ## Retraction (src/api/index.py lines 412-431) -/

/-- Observable outcome of the `delete_<broadcast_id>` callback branch. -/
structure RetractOutcome where
  deleteCalls : List (Int × Nat)
  deletedCount : Nat
  recordDeleted : Bool
  reportedUnavailable : Bool
deriving DecidableEq

/-- `retract` on the stored Broadcast Record (`none` = expired or already
retracted).  `del` is the transport delete: `true` on success, `false`
when `delete_message` raises (caught, only skipping the count). -/
def retract (record : Option (List (Int × Nat))) (del : Int × Nat → Bool) : RetractOutcome :=
  match record with
  | none => ⟨[], 0, false, true⟩
  | some msgs => ⟨msgs, (msgs.filter del).length, true, false⟩

/-- The store value under `broadcast:<id>` after a retract call:
`kv.delete` runs exactly in the record-present branch. -/
def storeAfterRetract (record : Option (List (Int × Nat))) : Option (List (Int × Nat)) :=
  match record with
  | none => none
  | some _ => none

/-! ## Admin gate and the callback handler (src/api/index.py lines 381-431
and 488-489) -/

/-- `is_admin`: `update.effective_user.id == ADMIN_USER_ID`. -/
def is_admin (adminId userId : Int) : Bool := userId == adminId

/-- Observable effects of `button_callback_handler` on a
`delete_<broadcast_id>` callback. -/
structure CallbackEffects where
  answered : Bool
  editedMessage : Bool
  transportDeletes : List (Int × Nat)
  storeRecordDeleted : Bool
deriving DecidableEq

/-- The `delete_` branch of `button_callback_handler` (lines 412-431) for
a caller with id `_userId`: the handler performs no `is_admin` check, so
`_adminId` and `_userId` are never consulted before acting; the branch is
exactly the retraction operation plus the answer/edit responses. -/
def button_callback_delete (_adminId _userId : Int) (record : Option (List (Int × Nat)))
    (del : Int × Nat → Bool) : CallbackEffects :=
  let r := retract record del
  ⟨true, true, r.deleteCalls, r.recordDeleted⟩

/-! ## Session state (src/api/index.py lines 35-45) -/

/-- The fields a session-state record can hold (the keys the source ever
writes: `action`, `message_to_send`, `schedule_time_utc`); `none` models
an absent key. -/
structure SessionFields where
  action : Option String
  message_to_send : Option MessageData
  schedule_time_utc : Option String
deriving DecidableEq

/-- `set_user_state` (lines 39-42): read the current record and apply
Python `dict.update` — keys present in `state_data` overwrite, all other
keys survive — then store with a 600 s TTL. -/
def set_user_state (cur new : SessionFields) : SessionFields :=
  ⟨if new.action.isSome then new.action else cur.action,
   if new.message_to_send.isSome then new.message_to_send else cur.message_to_send,
   if new.schedule_time_utc.isSome then new.schedule_time_utc else cur.schedule_time_utc⟩

/-- An empty `MessageData` (media-free), used to build concrete payloads. -/
def mdEmpty : MessageData := ⟨none, none, none, none, none, none⟩

/-- A concrete text payload. -/
def mdText : MessageData := { mdEmpty with text := some "hello" }

/-- A concrete scheduled post due at time 0. -/
def p0 : Post := ⟨"a", 0, mdEmpty⟩

/-- A concrete five-post queue; at `now = 50`, exactly the posts with
times 1 and 2 are due. -/
def posts5 : List Post :=
  [⟨"1", 1, mdEmpty⟩, ⟨"2", 100, mdEmpty⟩, ⟨"3", 2, mdEmpty⟩,
   ⟨"4", 200, mdEmpty⟩, ⟨"5", 300, mdEmpty⟩]

/-- Three registered channels for the fan-out scenario. -/
def channels3 : List String := ["@a", "@b", "@c"]

/-- A transport in which only the second channel fails. -/
def send3 : String → Option (Int × Nat) :=
  fun ch => if ch == "@b" then none else if ch == "@a" then some (1, 11) else some (3, 13)

/-! ## Helper lemmas -/

lemma toLower_of_toNat_lt {c : Char} (h : c.toNat < 65) : c.toLower = c := by
  unfold Char.toLower
  rw [if_neg]
  omega

lemma isDigit_toNat {c : Char} (h : c.isDigit = true) : 48 ≤ c.toNat ∧ c.toNat ≤ 57 := by
  simp [Char.isDigit] at h
  exact h

lemma map_toLower_digits (ds : List Char) (h : ∀ c ∈ ds, isDigitC c = true) :
    ds.map Char.toLower = ds := by
  induction ds with
  | nil => rfl
  | cons c cs ih =>
    have hc := isDigit_toNat (h c (by simp))
    have hl : c.toLower = c := toLower_of_toNat_lt (by omega)
    simp only [List.map_cons, hl, ih (fun x hx => h x (by simp [hx]))]

lemma takeWhile_all_append (p : Char → Bool) (ds rest : List Char) (u : Char)
    (hds : ∀ c ∈ ds, p c = true) (hu : p u = false) :
    (ds ++ u :: rest).takeWhile p = ds ∧ (ds ++ u :: rest).dropWhile p = u :: rest := by
  induction ds with
  | nil => simp [List.takeWhile_cons, List.dropWhile_cons, hu]
  | cons c cs ih =>
    have hc : p c = true := hds c (by simp)
    have h2 := ih (fun x hx => hds x (by simp [hx]))
    simp [List.takeWhile_cons, List.dropWhile_cons, hc, h2.1, h2.2]

lemma broadcast_foldl (att : String → Option (Int × Nat)) (channels : List String)
    (s : List (Int × Nat)) (f : List String) :
    channels.foldl
      (fun (acc : List (Int × Nat) × List String) ch =>
        match att ch with
        | some r => (acc.1 ++ [r], acc.2)
        | none => (acc.1, acc.2 ++ [ch]))
      (s, f)
    = (s ++ channels.filterMap att, f ++ channels.filter (fun ch => (att ch).isNone)) := by
  induction channels generalizing s f with
  | nil => simp
  | cons ch chs ih =>
    cases h : att ch with
    | some r =>
      simp only [List.foldl_cons, h, ih, List.filterMap_cons, List.filter_cons,
        Option.isNone_some, List.append_assoc, List.singleton_append, Bool.false_eq_true,
        if_false]
    | none =>
      simp only [List.foldl_cons, h, ih, List.filterMap_cons, List.filter_cons,
        Option.isNone_none, List.append_assoc, List.singleton_append, if_true]

lemma dispatchesPrecedePersist_map (due : List Post) (tail : List CronEffect)
    (h : dispatchesPrecedePersist tail = true) :
    dispatchesPrecedePersist (due.map CronEffect.dispatch ++ tail) = true := by
  induction due with
  | nil => simpa
  | cons p ps ih => simpa [dispatchesPrecedePersist] using ih

lemma decide_lt_eq_not_decide_le (t now : Int) :
    decide (now < t) = !decide (t ≤ now) := by
  by_cases h : t ≤ now
  · simp [h, Int.not_lt.mpr h]
  · simp [h, not_le.mp h]

/-! ## Claim theorems -/

/-- C10: relative-duration parsing is prefix-anchored but not suffix-anchored:
every string whose leading characters are a non-empty digit run followed by
`m`, `h` or `d` is accepted with the corresponding duration, trailing
characters ignored (`10mfoo` is 10 minutes, `2h30` is 2 hours), while `10x`,
`abc` and the empty string are rejected. -/
theorem parse_relative_time_prefix_anchored :
    (∀ (s : String) (ds : List Char) (u : Char) (rest : List Char),
      s.data = ds ++ u :: rest → ds ≠ [] → (∀ c ∈ ds, isDigitC c = true) →
      (u = 'm' ∨ u = 'h' ∨ u = 'd') →
      parse_relative_time s = some (unitMinutes u (digitsVal ds))) ∧
    parse_relative_time "10mfoo" = some 10 ∧
    parse_relative_time "2h30" = some 120 ∧
    parse_relative_time "10x" = none ∧
    parse_relative_time "abc" = none ∧
    parse_relative_time "" = none := by
  refine ⟨?_, by decide, by decide, by decide, by decide, by decide⟩
  intro s ds u rest hs hne hdig hu
  have hulow : u.toLower = u := by
    rcases hu with h | h | h <;> subst h <;> decide
  have hmap : toLowerL s.data = ds ++ u :: toLowerL rest := by
    rw [hs]
    unfold toLowerL
    rw [List.map_append, List.map_cons, map_toLower_digits ds hdig, hulow]
  have hund : isDigitC u = false := by
    rcases hu with h | h | h <;> subst h <;> decide
  have htw := takeWhile_all_append isDigitC ds (toLowerL rest) u hdig hund
  rw [parse_relative_time, hmap, htw.1, htw.2, if_neg hne]
  rcases hu with h | h | h <;> subst h <;> simp [unitMinutes]

/-- C8: `/addchannel` validation and idempotence: a handle without the `'@'`
sigil is rejected with the registry unchanged; a handle already present is
reported as already registered with the registry unchanged; a valid absent
handle is appended (so the registry then contains it exactly once) and a
second add of the same handle is a registry no-op. -/
theorem add_channel_registry_spec :
    (∀ (channels : List String) (name : String), startsWithAt name = false →
      add_channel channels name = (channels, .invalidName)) ∧
    (∀ (channels : List String) (name : String), name ∈ channels →
      add_channel channels name = (channels, .alreadyRegistered) ∨
      add_channel channels name = (channels, .invalidName)) ∧
    (∀ (channels : List String) (name : String), startsWithAt name = true → name ∈ channels →
      add_channel channels name = (channels, .alreadyRegistered)) ∧
    (∀ (channels : List String) (name : String), startsWithAt name = true → name ∉ channels →
      (add_channel channels name).1 = channels ++ [name] ∧
      (add_channel channels name).2 = .added ∧
      (add_channel channels name).1.count name = 1 ∧
      add_channel (add_channel channels name).1 name
        = ((add_channel channels name).1, .alreadyRegistered)) := by
  refine ⟨?_, ?_, ?_, ?_⟩
  · intro channels name h
    simp [add_channel, h]
  · intro channels name hmem
    by_cases h : startsWithAt name
    · left; simp [add_channel, h, hmem]
    · right; simp [add_channel, h]
  · intro channels name h hmem
    simp [add_channel, h, hmem]
  · intro channels name h hmem
    have h1 : (add_channel channels name).1 = channels ++ [name] := by
      simp [add_channel, h, hmem]
    have hcount : (channels ++ [name]).count name = 1 := by
      rw [List.count_append, List.count_eq_zero.mpr hmem]
      simp
    refine ⟨h1, by simp [add_channel, h, hmem], by rw [h1]; exact hcount, ?_⟩
    rw [h1]
    have : name ∈ channels ++ [name] := by simp
    simp [add_channel, h, this]

/-- C6: retraction is one-shot: with no stored record the operation reports
unavailability, makes no transport delete calls and deletes nothing from the
store; with a record it attempts every recorded pair, counts the successful
deletes, and removes the record even under partial failure, so a second
retract on the resulting store always takes the unavailable branch. -/
theorem retract_one_shot :
    (∀ del, retract none del = ⟨[], 0, false, true⟩) ∧
    (∀ (msgs : List (Int × Nat)) (del : Int × Nat → Bool),
      (retract (some msgs) del).deleteCalls = msgs ∧
      (retract (some msgs) del).deletedCount = (msgs.filter del).length ∧
      (retract (some msgs) del).recordDeleted = true ∧
      (retract (some msgs) del).reportedUnavailable = false) ∧
    (∀ (msgs : List (Int × Nat)) (del2 : Int × Nat → Bool),
      retract (storeAfterRetract (some msgs)) del2 = ⟨[], 0, false, true⟩) :=
  ⟨fun _ => rfl, fun _ _ => ⟨rfl, rfl, rfl, rfl⟩, fun _ _ => rfl⟩

/-- C9 counterexample: the transition `confirm_broadcast → awaiting_schedule_time`
writes only the `action` field, yet the stored record still carries the
pending `message_to_send` payload from the prior state — the store is merged,
not overwritten. -/
theorem set_user_state_keeps_stale_payload :
    (set_user_state ⟨some "confirm_broadcast", some mdText, none⟩
      ⟨some "awaiting_schedule_time", none, none⟩).message_to_send = some mdText ∧
    set_user_state ⟨some "confirm_broadcast", some mdText, none⟩
        ⟨some "awaiting_schedule_time", none, none⟩
      ≠ ⟨some "awaiting_schedule_time", none, none⟩ := by
  exact ⟨rfl, by decide⟩

/-- C9 amended: `set_user_state` merges the written fields into the stored
record (`dict.update`): a transition that sets only a new `action` keeps every
other field of the prior state, in particular a pending `message_to_send`
captured under `confirm_broadcast` survives into the successor state. -/
theorem set_user_state_merge_semantics :
    ∀ (cur : SessionFields),
      (set_user_state cur ⟨some "awaiting_schedule_time", none, none⟩).action
          = some "awaiting_schedule_time" ∧
      (set_user_state cur ⟨some "awaiting_schedule_time", none, none⟩).message_to_send
          = cur.message_to_send ∧
      (set_user_state cur ⟨some "awaiting_schedule_time", none, none⟩).schedule_time_utc
          = cur.schedule_time_utc :=
  fun _ => ⟨rfl, rfl, rfl⟩

/-- C3: the watermark escape at line 322 replaces `&` after `<` and `>`, so
the ampersands of the freshly produced entities are themselves re-escaped: a
watermark `<` is appended as `&amp;lt;` (which renders as the literal text
`&lt;`), not as the claimed `&lt;`; only a bare `&` escapes correctly. -/
theorem wmEscape_double_escapes :
    wmEscape ("<".data) = "&amp;lt;".data ∧
    wmEscape (">".data) = "&amp;gt;".data ∧
    wmEscape ("&".data) = "&amp;".data ∧
    (apply_watermark (some "<") { mdEmpty with caption := some "c" }).caption
      = some "c\n\n&amp;lt;" ∧
    "&amp;lt;" ≠ "&lt;" := by
  refine ⟨by decide, by decide, by decide, by decide, by decide⟩

/-- C4: `button_callback_handler` performs no admin check: its behaviour is
identical whatever the caller's id, and a `delete_` callback from a non-admin
(id 999 against admin id 1) answers, edits, performs the transport deletes of
the stored record and removes the record — it is not a silent no-op. -/
theorem button_callback_no_admin_gate :
    (∀ (adminId userId : Int) (record : Option (List (Int × Nat))) (del : Int × Nat → Bool),
      button_callback_delete adminId userId record del
        = button_callback_delete adminId adminId record del) ∧
    is_admin 1 999 = false ∧
    button_callback_delete 1 999 (some [(5, 7)]) (fun _ => true)
      = ⟨true, true, [(5, 7)], true⟩ ∧
    (button_callback_delete 1 999 (some [(5, 7)]) (fun _ => true)).transportDeletes ≠ [] := by
  exact ⟨fun _ _ _ _ => rfl, by decide, by decide, by decide⟩

/-- C2 counterexample: with a single due post the cron run's effect sequence
is `[dispatch, persist]` — the queue-persist write does not precede the
dispatch. -/
theorem cron_persist_after_dispatch_cex :
    (cron_job_runner [p0] 0).1 = [.dispatch p0, .persist []] ∧
    persistPrecedesDispatches (cron_job_runner [p0] 0).1 = false := by
  exact ⟨by decide, by decide⟩

/-- C2 amended: one cron reconciliation run dispatches every due post first
and only afterwards writes the `remaining` partition back to the store (and
writes it only when at least one post was due): in the run's sequence of
effects every dispatch precedes the queue-persist write. -/
theorem cron_dispatch_then_persist :
    ∀ (posts : List Post) (now : Int),
      (cron_job_runner posts now).1
        = (drain_due posts now).1.map CronEffect.dispatch ++
            (if (drain_due posts now).1 = [] then []
             else [CronEffect.persist (drain_due posts now).2]) ∧
      dispatchesPrecedePersist (cron_job_runner posts now).1 = true := by
  intro posts now
  by_cases hp : posts = []
  · subst hp
    simp [cron_job_runner, drain_due, dispatchesPrecedePersist]
  · by_cases hd : (drain_due posts now).1 = []
    · simp [cron_job_runner, hp, hd, dispatchesPrecedePersist]
    · constructor
      · simp [cron_job_runner, hp, hd]
      · have : (cron_job_runner posts now).1
            = (drain_due posts now).1.map CronEffect.dispatch ++
                [CronEffect.persist (drain_due posts now).2] := by
          simp [cron_job_runner, hp, hd]
        rw [this]
        exact dispatchesPrecedePersist_map _ _ (by simp [dispatchesPrecedePersist])

/-- C7: `drain_due` is a total, order-preserving partition: the due part is
exactly the posts with target time ≤ now, the remaining part exactly those
with target time > now, both order-preserving sublists of the queue, with no
post dropped or duplicated (together they are a permutation of the queue); an
empty queue gives two empty partitions and a successful 200 no-op cron
result; on the five-post queue `posts5` at `now = 50` exactly the two due
posts are returned and the other three kept, in their original order. -/
theorem drain_due_total_partition :
    (∀ (posts : List Post) (now : Int),
      (drain_due posts now).1 = posts.filter (fun p => decide (p.schedule_time_utc ≤ now)) ∧
      (drain_due posts now).2 = posts.filter (fun p => decide (now < p.schedule_time_utc)) ∧
      List.Sublist (drain_due posts now).1 posts ∧
      List.Sublist (drain_due posts now).2 posts ∧
      List.Perm ((drain_due posts now).1 ++ (drain_due posts now).2) posts ∧
      (∀ p ∈ (drain_due posts now).1, p.schedule_time_utc ≤ now) ∧
      (∀ p ∈ (drain_due posts now).2, now < p.schedule_time_utc)) ∧
    (∀ now : Int, drain_due [] now = ([], []) ∧ cron_job_runner [] now = ([], 200)) ∧
    drain_due posts5 50
      = ([⟨"1", 1, mdEmpty⟩, ⟨"3", 2, mdEmpty⟩],
         [⟨"2", 100, mdEmpty⟩, ⟨"4", 200, mdEmpty⟩, ⟨"5", 300, mdEmpty⟩]) := by
  refine ⟨?_, fun now => ⟨rfl, rfl⟩, by decide⟩
  intro posts now
  refine ⟨rfl, rfl, List.filter_sublist posts, List.filter_sublist posts, ?_, ?_, ?_⟩
  · show List.Perm
      (posts.filter (fun p => decide (p.schedule_time_utc ≤ now)) ++
        posts.filter (fun p => decide (now < p.schedule_time_utc))) posts
    have hcong : posts.filter (fun p => decide (now < p.schedule_time_utc))
        = posts.filter (fun p => !decide (p.schedule_time_utc ≤ now)) :=
      List.filter_congr (fun p _ => decide_lt_eq_not_decide_le _ now)
    rw [hcong]
    exact List.filter_append_perm _ posts
  · intro p hp
    have := (List.mem_filter.mp hp).2
    exact of_decide_eq_true this
  · intro p hp
    have := (List.mem_filter.mp hp).2
    exact of_decide_eq_true this

/-- C7 witness: instantiation at the concrete five-post queue. -/
theorem drain_due_total_partition_witness :
    (⟨"1", 1, mdEmpty⟩ : Post).schedule_time_utc ≤ 50 ∧
    (50 : Int) < (⟨"2", 100, mdEmpty⟩ : Post).schedule_time_utc :=
  ⟨(drain_due_total_partition.1 posts5 50).2.2.2.2.2.1 ⟨"1", 1, mdEmpty⟩ (by decide),
   (drain_due_total_partition.1 posts5 50).2.2.2.2.2.2 ⟨"2", 100, mdEmpty⟩ (by decide)⟩

/-- C1: broadcast fan-out attempts every channel independently — the receipts
are exactly the successful sends and the failed list exactly the channels
whose send failed, each in channel order, one channel's failure never aborting
the rest; iff at least one send succeeded, exactly one Broadcast Record
holding the receipt pairs is persisted with a 604800-second (7-day) expiry
and the counter is incremented by exactly one; with the three channels of
`channels3` where only `"@b"` fails, the outcome is two receipts, one failed
channel, one record with two entries and a counter increment of one. -/
theorem broadcast_fanout_accounting :
    (∀ (channels : List String) (wm : Option String) (md0 : MessageData)
        (send : String → Option (Int × Nat)),
      (broadcast_message channels wm md0 send).sent
          = channels.filterMap
              (fun ch => if hasSendablePayload (apply_watermark wm md0) then send ch else none) ∧
      (broadcast_message channels wm md0 send).failed
          = channels.filter
              (fun ch =>
                (if hasSendablePayload (apply_watermark wm md0) then send ch
                 else none).isNone) ∧
      (broadcast_message channels wm md0 send).record
          = (if (broadcast_message channels wm md0 send).sent = [] then none
             else some (broadcast_message channels wm md0 send).sent) ∧
      (broadcast_message channels wm md0 send).counterInc
          = (if (broadcast_message channels wm md0 send).sent = [] then 0 else 1) ∧
      (broadcast_message channels wm md0 send).recordTtlSeconds
          = (if (broadcast_message channels wm md0 send).sent = [] then 0 else 604800)) ∧
    broadcast_message channels3 none mdText send3
      = ⟨[(1, 11), (3, 13)], ["@b"], some [(1, 11), (3, 13)], 604800, 1⟩ := by
  refine ⟨?_, by decide⟩
  intro channels wm md0 send
  by_cases hch : channels = []
  · subst hch
    simp [broadcast_message]
  · have hfold := broadcast_foldl
      (fun ch => if hasSendablePayload (apply_watermark wm md0) then send ch else none)
      channels [] []
    simp only [List.nil_append] at hfold
    simp only [broadcast_message, if_neg hch, hfold]
    by_cases hs : channels.filterMap
        (fun ch => if hasSendablePayload (apply_watermark wm md0) then send ch else none) = []
    · simp [hs]
    · simp [hs]

/-- C5: absolute time-expression parsing in the fixed UTC+3 offset: with no
date component the parsed time-of-day is taken on today's date and, when not
strictly in the future, rolled forward by exactly one day (1440 minutes);
with a date component a non-future moment is rejected instead of rolled;
out-of-range hours or minutes (hour 24, minute 60, am/pm hour outside 1..12)
and unparseable strings are rejected; every successful result is the resolved
local moment minus 180 minutes (3 hours), i.e. converted to UTC. -/
theorem parse_datetime_eat_policy :
    (∀ (now : DT) (s : String) (h mi : Nat),
      findDate (pstrip s.data) = none →
      pstrip s.data ≠ [] →
      parse_time_component (despace (toLowerL (pstrip s.data))) = some (h, mi) →
      parse_datetime_eat now s =
        (if (dtMinutes ⟨now.year, now.month, now.day, h, mi⟩ : Int) ≤ (dtMinutes now : Int)
         then some ((dtMinutes ⟨now.year, now.month, now.day, h, mi⟩ : Int) + 1440 - 180)
         else some ((dtMinutes ⟨now.year, now.month, now.day, h, mi⟩ : Int) - 180))) ∧
    (∀ (now : DT) (s : String) (ymd : YMD) (rest : List Char) (h mi : Nat),
      findDate (pstrip s.data) = some (ymd, rest) →
      rest ≠ [] →
      parse_time_component (despace (toLowerL rest)) = some (h, mi) →
      parse_datetime_eat now s =
        (if (dtMinutes ⟨ymd.year, ymd.month, ymd.day, h, mi⟩ : Int) ≤ (dtMinutes now : Int)
         then none
         else some ((dtMinutes ⟨ymd.year, ymd.month, ymd.day, h, mi⟩ : Int) - 180))) ∧
    parse_datetime_eat ⟨2025, 9, 28, 10, 0⟩ "9:00"
      = some ((dtMinutes ⟨2025, 9, 29, 9, 0⟩ : Int) - 180) ∧
    parse_datetime_eat ⟨2025, 9, 28, 10, 0⟩ "9/28/2025 1:30 pm"
      = some ((dtMinutes ⟨2025, 9, 28, 13, 30⟩ : Int) - 180) ∧
    parse_datetime_eat ⟨2025, 9, 28, 14, 0⟩ "9/28/2025 1:30 pm" = none ∧
    parse_datetime_eat ⟨2025, 9, 28, 10, 0⟩ "24:00" = none ∧
    parse_datetime_eat ⟨2025, 9, 28, 10, 0⟩ "10:60" = none ∧
    parse_datetime_eat ⟨2025, 9, 28, 10, 0⟩ "13:30pm" = none ∧
    parse_datetime_eat ⟨2025, 9, 28, 10, 0⟩ "0:30pm" = none ∧
    parse_datetime_eat ⟨2025, 9, 28, 10, 0⟩ "garbage" = none := by
  refine ⟨?_, ?_, by decide, by decide, by decide, by decide, by decide, by decide,
    by decide, by decide⟩
  · intro now s h mi hfd hne hpt
    simp only [parse_datetime_eat, hfd, hpt, if_neg hne]
  · intro now s ymd rest h mi hfd hne hpt
    simp only [parse_datetime_eat, hfd, hpt, if_neg hne]

/-- C5 witness: the two policy branches instantiated on the spec's examples. -/
theorem parse_datetime_eat_policy_witness :
    parse_datetime_eat ⟨2025, 9, 28, 10, 0⟩ "9:00"
      = (if (dtMinutes ⟨2025, 9, 28, 9, 0⟩ : Int) ≤ (dtMinutes (⟨2025, 9, 28, 10, 0⟩ : DT) : Int)
         then some ((dtMinutes ⟨2025, 9, 28, 9, 0⟩ : Int) + 1440 - 180)
         else some ((dtMinutes ⟨2025, 9, 28, 9, 0⟩ : Int) - 180)) ∧
    parse_datetime_eat ⟨2025, 9, 28, 14, 0⟩ "9/28/2025 1:30 pm"
      = (if (dtMinutes ⟨2025, 9, 28, 13, 30⟩ : Int)
            ≤ (dtMinutes (⟨2025, 9, 28, 14, 0⟩ : DT) : Int)
         then none
         else some ((dtMinutes ⟨2025, 9, 28, 13, 30⟩ : Int) - 180)) :=
  ⟨parse_datetime_eat_policy.1 ⟨2025, 9, 28, 10, 0⟩ "9:00" 9 0
      (by decide) (by decide) (by decide),
   parse_datetime_eat_policy.2.1 ⟨2025, 9, 28, 14, 0⟩ "9/28/2025 1:30 pm"
      ⟨2025, 9, 28⟩ ("1:30 pm".data) 13 30 (by decide) (by decide) (by decide)⟩

/-- C10 witness: the general acceptance clause instantiated at `"45h"`. -/
theorem parse_relative_time_prefix_anchored_witness :
    parse_relative_time "45h" = some (unitMinutes 'h' (digitsVal ['4', '5'])) :=
  parse_relative_time_prefix_anchored.1 "45h" ['4', '5'] 'h' []
    (by decide) (by decide) (by decide) (Or.inr (Or.inl rfl))

/-- C8 witness: the validation, duplicate and append clauses at concrete
registries. -/
theorem add_channel_registry_spec_witness :
    add_channel [] "x" = ([], .invalidName) ∧
    add_channel ["@a"] "@a" = (["@a"], .alreadyRegistered) ∧
    (add_channel [] "@a").1.count "@a" = 1 :=
  ⟨add_channel_registry_spec.1 [] "x" (by decide),
   add_channel_registry_spec.2.2.1 ["@a"] "@a" (by decide) (by simp),
   (add_channel_registry_spec.2.2.2 [] "@a" (by decide) (by simp)).2.2.1⟩

end WaveBot
